import Mathlib

/-!
# Verification of the go-glx/frames cycle pacer and task scheduler

Shallow embedding of the two core subsystems of the repository:

* the capacity-constrained background-task scheduler
  (`frame/internal/schedule`: `Prioritize.calculateTaskPriority`,
  `Scheduler.Execute`, `Scheduler.run`), and
* the cycle pacer (`Executor.Execute` catch-up tick loop, throttle
  computation, and `Executor.handleError`).

Modelling conventions:

* A `time.Time` value is an integer count of nanoseconds since Go's zero
  time (January 1, year 1); the zero `time.Time` is `0`.
* A `time.Duration` is an integer count of nanoseconds.  Go durations are
  `int64`; `time.Time.Sub` saturates at the `int64` bounds, which
  `timeSub` models explicitly.
* `time.Time.UnixMicro` is floor division of the nanosecond count
  (shifted to the Unix epoch) by 1000; for a positive divisor `Int.ediv`
  is floor division, which matches Go's `sec*1e6 + nsec/1e3` with
  `0 ≤ nsec < 1e9`.
* Go's `float32`/`float64` arithmetic in the priority score is modelled
  by exact rational arithmetic.  The sentinel comparisons (`== -1`,
  `== 2`) and every claim proved here live in ranges where the float
  computation is exact or cannot cross a sentinel, so the rational model
  is adequate; degenerate configurations whose score would divide by
  zero (a `runAtLeastOnceIn` under one microsecond) are excluded by
  explicit well-formedness hypotheses mirroring the spec's "expected
  configuration" invariant.
* `sort.Slice` with the comparator
  `tasks[i].currentPriority >= tasks[j].currentPriority` is modelled by
  `List.insertionSort` with the same comparator: it produces a list
  sorted descending by score, which is the postcondition the Go code
  relies on.
* Side effects (running a task, the wall clock) are made explicit:
  `Scheduler.Execute` takes the evaluation time `now` and a stream
  `dur : Nat → Int` of measured run durations (the k-th task run during
  the call takes `dur k` nanoseconds); the clock advances by each run's
  duration.
-/

namespace Frames

/-- Largest `int64` value (Go durations saturate here). -/
def int64Max : Int := 2 ^ 63 - 1

/-- Smallest `int64` value. -/
def int64Min : Int := -(2 ^ 63)

/-- Go `time.Time.Sub`: the difference clamped to the `int64` duration range. -/
def timeSub (t u : Int) : Int := max int64Min (min int64Max (t - u))

/-- Nanoseconds from Go's zero time (year 1) to the Unix epoch. -/
def unixEpochNs : Int := 62135596800 * 1000000000

/-- Go `time.Time.UnixMicro`: microseconds since the Unix epoch,
floor division of the nanosecond count by 1000 (`/` on `Int` is
`Int.ediv`, floor division for this positive divisor, matching Go's
`sec*1e6 + nsec/1e3` with `0 ≤ nsec < 1e9`). -/
def unixMicro (t : Int) : Int := (t - unixEpochNs) / 1000

/-- `schedule.Priority` (task_def_garbage_collect.go, schedule package). -/
inductive Priority where
  | low
  | normal
  | high
deriving DecidableEq

/-- `schedule.priorityAsMultiplier`: Low=0.75, Normal=1.00, High=1.25. -/
def priorityAsMultiplier : Priority → ℚ
  | .low => 3 / 4
  | .normal => 1
  | .high => 5 / 4

/-- `schedule.runPriorityNotNeed` sentinel. -/
def runPriorityNotNeed : ℚ := -1

/-- `schedule.runPriorityCritical` sentinel. -/
def runPriorityCritical : ℚ := 2

/-- `schedule.Task` (frame/internal/schedule/task.go).  `taskFn` is an
opaque side effect and is not part of the state. -/
structure Task where
  priority : Priority
  runAtLeastOnceIn : Int
  runAtMostOnceIn : Int
  currentPriority : ℚ
  lastRunAt : Int
  avgDuration : Int
  runsCount : Nat
deriving DecidableEq

/-- `Prioritize.calculateTaskPriority` (task_def_garbage_collect.go,
schedule package, lines 166-200), with the injected clock `getTime`
returning `now` at both call sites. -/
def calculateTaskPriority (now : Int) (task : Task) : ℚ :=
  let sinceLast := timeSub now task.lastRunAt
  if sinceLast < task.runAtMostOnceIn then
    runPriorityNotNeed
  else if task.runAtLeastOnceIn ≤ sinceLast then
    runPriorityCritical
  else
    let maxOverdueAt := task.lastRunAt + task.runAtLeastOnceIn
    let currentPos : ℚ :=
      ((unixMicro now - unixMicro task.lastRunAt : Int) : ℚ) /
        ((unixMicro maxOverdueAt - unixMicro task.lastRunAt : Int) : ℚ)
    currentPos * priorityAsMultiplier task.priority

/-- Phase 1 of `Scheduler.Execute`: store the score in `currentPriority`. -/
def scoreTask (now : Int) (t : Task) : Task :=
  { t with currentPriority := calculateTaskPriority now t }

/-- `Scheduler.run` (part_002 lines 238-248): set `lastRunAt` to the run's
start time, update `avgDuration` with the cumulative moving average
(Go `int64` division truncates toward zero, `Int.tdiv`), increment
`runsCount`.  `clock` is the wall time at the start of the run and `d`
the measured duration. -/
def runTask (t : Task) (clock d : Int) : Task :=
  { t with
    lastRunAt := clock
    avgDuration :=
      Int.tdiv (t.avgDuration * (t.runsCount : Int) + d) ((t.runsCount : Int) + 1)
    runsCount := t.runsCount + 1 }

/-- The iteration of `Scheduler.Execute` over the sorted task list
(part_002 lines 205-234).  `k` indexes the duration stream, `clock` is
the current wall time, `capacity` the remaining budget. -/
def scheduleLoop (dur : Nat → Int) : Nat → Int → Int → List Task → List Task
  | _, _, _, [] => []
  | k, clock, capacity, t :: rest =>
    if t.currentPriority = runPriorityNotNeed then
      -- not need run this task right now
      t :: scheduleLoop dur k clock capacity rest
    else if t.currentPriority = runPriorityCritical then
      -- should be executed right now
      runTask t clock (dur k) ::
        scheduleLoop dur (k + 1) (clock + dur k) (capacity - dur k) rest
    else if capacity ≤ 0 then
      -- break
      t :: rest
    else if t.avgDuration ≤ 0 then
      -- duration unknown yet, run only this task, then break
      runTask t clock (dur k) :: rest
    else if capacity < t.avgDuration then
      -- not have time to it
      t :: scheduleLoop dur k clock capacity rest
    else
      runTask t clock (dur k) ::
        scheduleLoop dur (k + 1) (clock + dur k) (capacity - dur k) rest

/-- The `sort.Slice` comparator of `Scheduler.Execute` (part_002 line 202):
`tasks[i].currentPriority >= tasks[j].currentPriority`. -/
def taskGE (a b : Task) : Prop := b.currentPriority ≤ a.currentPriority

instance : DecidableRel taskGE := fun a b =>
  inferInstanceAs (Decidable (b.currentPriority ≤ a.currentPriority))

instance : IsTotal Task taskGE :=
  ⟨fun a b => (le_total b.currentPriority a.currentPriority).imp id id⟩

instance : IsTrans Task taskGE :=
  ⟨fun _ _ _ hab hbc => le_trans hbc hab⟩

/-- `Scheduler.Execute` (part_002 lines 196-235): score every task, sort
by descending score, then run the admission loop. -/
def schedulerExecute (now : Int) (dur : Nat → Int) (capacity : Int)
    (tasks : List Task) : List Task :=
  scheduleLoop dur 0 now capacity
    (List.insertionSort taskGE (tasks.map (scoreTask now)))

/-- The spec's "expected (not enforced) configuration" invariant for a
task (spec §3), with durations representable as `int64` and at least one
microsecond (the evaluator scores at microsecond resolution). -/
def WellFormed (t : Task) : Prop :=
  1000 ≤ t.runAtMostOnceIn ∧
    t.runAtMostOnceIn < t.runAtLeastOnceIn ∧ t.runAtLeastOnceIn ≤ int64Max

instance (t : Task) : Decidable (WellFormed t) := by
  unfold WellFormed
  infer_instance

/-- A score is one of the two sentinels or a fraction-branch value in
`[0, 5/4]`; this is what every well-formed task's score looks like. -/
def ScoreOK (t : Task) : Prop :=
  t.currentPriority = runPriorityNotNeed ∨
    t.currentPriority = runPriorityCritical ∨
      (0 ≤ t.currentPriority ∧ t.currentPriority ≤ 5 / 4)

/-- `Scheduler.run` applied `n` times to a task, every run measured at
exactly `d` nanoseconds; `c k` is the wall time at the start of run `k`. -/
def runTimes (c : Nat → Int) (d : Int) : Nat → Task → Task
  | 0, t => t
  | n + 1, t => runTimes c d n (runTask t (c n) d)

/-! ## Executor (part_001): catch-up tick loop, throttle, error policy -/

/-- The catch-up tick loop of `Executor.Execute` (part_001 lines 95-124):
starting from `updateDelta`, loop while `updateDelta > rate`; the first
iteration performs the extra "free" decrement (`requiredUpdate`), every
iteration invokes the update callback once and decrements `updateDelta`
by `rate`.  Returns the number of update-callback invocations.  The Go
loop does not terminate when `rate ≤ 0`; the executor always has
`rate = 1s / targetTPS > 0`, and the embedding returns 0 outside that
regime to stay total. -/
def tickLoop (rate : Int) (updateDelta : Int) (required : Bool) : Nat :=
  if h : 0 < rate ∧ rate < updateDelta then
    if required then 1 + tickLoop rate (updateDelta - rate - rate) false
    else 1 + tickLoop rate (updateDelta - rate) false
  else 0
termination_by updateDelta.toNat
decreasing_by
  · omega
  · omega

/-- Number of update calls in one cycle (part_001 lines 98-123):
`updateDelta` starts at `rate + deltaTime` and `requiredUpdate` at
`true`. -/
def numUpdates (rate deltaTime : Int) : Nat :=
  tickLoop rate (rate + deltaTime) true

/-- Throttle computation of `Executor.Execute` (part_001 lines 148-163):
`rate − (tickDur + frameDur + tasksDur)`, minus `throttleCorrection`
only when that is positive, clamped to zero from below. -/
def throttleTime (rate tickDur frameDur tasksDur throttleCorrection : Int) : Int :=
  let t1 := rate - (tickDur + frameDur + tasksDur)
  let t2 := if 0 < throttleCorrection then t1 - throttleCorrection else t1
  if t2 < 0 then 0 else t2

/-- `frame.ErrBehavior`.  Its declaration file is not in the sources, but
`handleError` matches on exactly `ErrBehaviorExit` and `ErrBehaviorLog`
and falls through for every other value, so an `other` constructor
models the open Go constant set. -/
inductive ErrBehavior where
  | exit
  | log
  | other
deriving DecidableEq

/-- `Executor.handleError` (part_001 lines 298-309).  First component:
the error returned to `Execute` (non-`none` aborts the loop).  Second
component: the error forwarded to `logger.Error`. -/
def handleError (b : ErrBehavior) (e : Nat) : Option Nat × Option Nat :=
  match b with
  | .exit => (some e, none)
  | .log => (none, some e)
  | .other => (none, none)

/-- The error plumbing of `Executor.Execute` (part_001 lines 112-135):
each callback outcome (`none` = success, `some e` = failure) is checked
in order; a failure goes through `handleError`, and a non-nil result
aborts the loop with that error.  Returns either the aborting error or
the list of errors handed to the logger.  Errors are represented by
`Nat` identities (only propagation is modelled, not error contents). -/
def runCallbacks (b : ErrBehavior) : List (Option Nat) → Except Nat (List Nat)
  | [] => .ok []
  | none :: rest => runCallbacks b rest
  | some e :: rest =>
    match handleError b e with
    | (some nextErr, _) => .error nextErr
    | (none, logged) =>
      match runCallbacks b rest with
      | .error x => .error x
      | .ok logs => .ok (logged.toList ++ logs)

/-! ## Concrete tasks for counterexamples and witnesses -/

/-- Wall time for the concrete scenarios: the Unix epoch in the model's
year-1 nanosecond scale. -/
def epochNs : Int := unixEpochNs

/-- Concrete task: Normal priority, rate limit 1s, SLA 10s, last run at
`epochNs`, average duration 1ms, one completed run. -/
def cexTask1 : Task :=
  { priority := .normal
    runAtLeastOnceIn := 10000000000
    runAtMostOnceIn := 1000000000
    currentPriority := 0
    lastRunAt := epochNs
    avgDuration := 1000000
    runsCount := 1 }

/-- Concrete task: Normal priority, rate limit 1s, SLA 20s, last run at
`epochNs`, never completed (unknown average duration). -/
def cexTask2 : Task :=
  { priority := .normal
    runAtLeastOnceIn := 20000000000
    runAtMostOnceIn := 1000000000
    currentPriority := 0
    lastRunAt := epochNs
    avgDuration := 0
    runsCount := 0 }

/-- Evaluation time for the concrete scenarios: 5 seconds after
`epochNs`. -/
def cexNow : Int := epochNs + 5000000000

/-- Concrete task: overdue past its SLA at `cexNow` (last run 5s ago,
SLA 2s). -/
def cexCritical : Task :=
  { priority := .low
    runAtLeastOnceIn := 2000000000
    runAtMostOnceIn := 1000000000
    currentPriority := 0
    lastRunAt := epochNs
    avgDuration := 1000000
    runsCount := 1 }

/-- Concrete task: rate-limited at `cexNow` (last run 5s ago, rate limit
10s). -/
def cexLimited : Task :=
  { priority := .high
    runAtLeastOnceIn := 30000000000
    runAtMostOnceIn := 10000000000
    currentPriority := 0
    lastRunAt := epochNs
    avgDuration := 1000000
    runsCount := 3 }

/-! ## Helper lemmas: the priority evaluator -/

theorem timeSub_eq (t u : Int) (h1 : int64Min ≤ t - u) (h2 : t - u ≤ int64Max) :
    timeSub t u = t - u := by
  unfold timeSub
  omega

theorem score_notNeeded (now : Int) (t : Task)
    (h : timeSub now t.lastRunAt < t.runAtMostOnceIn) :
    calculateTaskPriority now t = runPriorityNotNeed := by
  unfold calculateTaskPriority
  simp [h]

theorem score_critical (now : Int) (t : Task)
    (h1 : ¬ timeSub now t.lastRunAt < t.runAtMostOnceIn)
    (h2 : t.runAtLeastOnceIn ≤ timeSub now t.lastRunAt) :
    calculateTaskPriority now t = runPriorityCritical := by
  unfold calculateTaskPriority
  simp [h1, h2]

theorem score_fraction (now : Int) (t : Task)
    (h1 : ¬ timeSub now t.lastRunAt < t.runAtMostOnceIn)
    (h2 : ¬ t.runAtLeastOnceIn ≤ timeSub now t.lastRunAt) :
    calculateTaskPriority now t =
      ((unixMicro now - unixMicro t.lastRunAt : Int) : ℚ) /
          ((unixMicro (t.lastRunAt + t.runAtLeastOnceIn) - unixMicro t.lastRunAt : Int) : ℚ) *
        priorityAsMultiplier t.priority := by
  unfold calculateTaskPriority
  simp [h1, h2]

theorem multiplier_nonneg (p : Priority) : 0 ≤ priorityAsMultiplier p := by
  cases p <;> norm_num [priorityAsMultiplier]

theorem multiplier_le (p : Priority) : priorityAsMultiplier p ≤ 5 / 4 := by
  cases p <;> norm_num [priorityAsMultiplier]

theorem multiplier_pos (p : Priority) : 0 < priorityAsMultiplier p := by
  cases p <;> norm_num [priorityAsMultiplier]

/-- In the fraction branch of a well-formed task the microsecond
numerator and denominator satisfy `1 ≤ num ≤ den`. -/
theorem fraction_num_den (now : Int) (t : Task) (hwf : WellFormed t)
    (h1 : ¬ timeSub now t.lastRunAt < t.runAtMostOnceIn)
    (h2 : ¬ t.runAtLeastOnceIn ≤ timeSub now t.lastRunAt) :
    1 ≤ unixMicro now - unixMicro t.lastRunAt ∧
      unixMicro now - unixMicro t.lastRunAt ≤
        unixMicro (t.lastRunAt + t.runAtLeastOnceIn) - unixMicro t.lastRunAt ∧
      1 ≤ unixMicro (t.lastRunAt + t.runAtLeastOnceIn) - unixMicro t.lastRunAt := by
  obtain ⟨hm, hml, hmax⟩ := hwf
  have hs : timeSub now t.lastRunAt = now - t.lastRunAt := by
    unfold timeSub int64Min int64Max at *
    omega
  rw [hs] at h1 h2
  unfold unixMicro int64Max at *
  omega

/-- Every well-formed task's score is a sentinel or lies in `[0, 5/4]`. -/
theorem scoreOK_of_wellFormed (now : Int) (t : Task) (hwf : WellFormed t) :
    ScoreOK (scoreTask now t) := by
  unfold ScoreOK scoreTask
  simp only
  by_cases h1 : timeSub now t.lastRunAt < t.runAtMostOnceIn
  · exact Or.inl (score_notNeeded now t h1)
  by_cases h2 : t.runAtLeastOnceIn ≤ timeSub now t.lastRunAt
  · exact Or.inr (Or.inl (score_critical now t h1 h2))
  refine Or.inr (Or.inr ?_)
  rw [score_fraction now t h1 h2]
  obtain ⟨hnum, hnd, hden⟩ := fraction_num_den now t hwf h1 h2
  have hnumQ : (0 : ℚ) ≤ ((unixMicro now - unixMicro t.lastRunAt : Int) : ℚ) := by
    exact_mod_cast le_trans (by norm_num) (Int.cast_le.mpr hnum)
  have hdenQ : (0 : ℚ) <
      ((unixMicro (t.lastRunAt + t.runAtLeastOnceIn) - unixMicro t.lastRunAt : Int) : ℚ) := by
    exact_mod_cast lt_of_lt_of_le (by norm_num) (Int.cast_le.mpr hden)
  have hfr1 : ((unixMicro now - unixMicro t.lastRunAt : Int) : ℚ) /
      ((unixMicro (t.lastRunAt + t.runAtLeastOnceIn) - unixMicro t.lastRunAt : Int) : ℚ) ≤ 1 := by
    rw [div_le_one hdenQ]
    exact_mod_cast hnd
  have hfr0 : (0 : ℚ) ≤ ((unixMicro now - unixMicro t.lastRunAt : Int) : ℚ) /
      ((unixMicro (t.lastRunAt + t.runAtLeastOnceIn) - unixMicro t.lastRunAt : Int) : ℚ) :=
    div_nonneg hnumQ (le_of_lt hdenQ)
  constructor
  · exact mul_nonneg hfr0 (multiplier_nonneg t.priority)
  · calc _ ≤ priorityAsMultiplier t.priority :=
        mul_le_of_le_one_left (multiplier_nonneg t.priority) hfr1
    _ ≤ 5 / 4 := multiplier_le t.priority

/-! ## Helper lemmas: the admission loop -/

theorem sentinels_ne : runPriorityCritical ≠ runPriorityNotNeed := by
  norm_num [runPriorityCritical, runPriorityNotNeed]

theorem runTask_currentPriority (t : Task) (clock d : Int) :
    (runTask t clock d).currentPriority = t.currentPriority := rfl

/-- Head step of the admission loop for a critical task: it runs with
the next measured duration, which is deducted from the capacity — with
no condition on the capacity at all. -/
theorem scheduleLoop_critical_step (dur : Nat → Int) (k : Nat) (clock cap : Int)
    (t : Task) (rest : List Task) (h : t.currentPriority = runPriorityCritical) :
    scheduleLoop dur k clock cap (t :: rest) =
      runTask t clock (dur k) ::
        scheduleLoop dur (k + 1) (clock + dur k) (cap - dur k) rest := by
  rw [scheduleLoop]
  rw [if_neg (by rw [h]; exact sentinels_ne), if_pos h]

/-- Head step for an unknown-cost task with positive remaining capacity:
run it and stop, the remaining tasks come through untouched. -/
theorem scheduleLoop_unknown_step (dur : Nat → Int) (k : Nat) (clock cap : Int)
    (t : Task) (rest : List Task)
    (h1 : t.currentPriority ≠ runPriorityNotNeed)
    (h2 : t.currentPriority ≠ runPriorityCritical)
    (h3 : 0 < cap) (h4 : t.avgDuration ≤ 0) :
    scheduleLoop dur k clock cap (t :: rest) = runTask t clock (dur k) :: rest := by
  rw [scheduleLoop]
  rw [if_neg h1, if_neg h2, if_neg (by omega), if_pos h4]

/-- In a descending-sorted list of well-scored tasks, every critical
task is run by the admission loop, whatever the capacity. -/
theorem criticals_run (dur : Nat → Int) :
    ∀ l : List Task, (∀ u ∈ l, ScoreOK u) → l.Sorted taskGE →
      ∀ u ∈ l, u.currentPriority = runPriorityCritical →
        ∀ (k : Nat) (clock cap : Int),
          ∃ c d, runTask u c d ∈ scheduleLoop dur k clock cap l := by
  intro l
  induction l with
  | nil => simp
  | cons h rest ih =>
    intro hok hsort u hu hcrit k clock cap
    rcases List.mem_cons.mp hu with rfl | hu
    · rw [scheduleLoop_critical_step dur k clock cap u rest hcrit]
      exact ⟨clock, dur k, List.mem_cons_self _ _⟩
    · have hok' : ∀ v ∈ rest, ScoreOK v := fun v hv => hok v (List.mem_cons_of_mem _ hv)
      have hsort' : rest.Sorted taskGE := hsort.of_cons
      rcases hok h (List.mem_cons_self _ _) with h1 | h2 | h3
      · rw [scheduleLoop, if_pos h1]
        obtain ⟨c, d, hm⟩ := ih hok' hsort' u hu hcrit k clock cap
        exact ⟨c, d, List.mem_cons_of_mem _ hm⟩
      · rw [scheduleLoop_critical_step dur k clock cap h rest h2]
        obtain ⟨c, d, hm⟩ :=
          ih hok' hsort' u hu hcrit (k + 1) (clock + dur k) (cap - dur k)
        exact ⟨c, d, List.mem_cons_of_mem _ hm⟩
      · exfalso
        have hge : taskGE h u := List.rel_of_sorted_cons hsort u hu
        unfold taskGE at hge
        rw [hcrit] at hge
        unfold runPriorityCritical at hge
        have := h3.2
        linarith

/-- Every element of the admission loop's output is an input element,
either untouched or updated by exactly one run. -/
theorem scheduleLoop_shape (dur : Nat → Int) :
    ∀ (l : List Task) (k : Nat) (clock cap : Int),
      ∀ v ∈ scheduleLoop dur k clock cap l,
        ∃ u ∈ l, v = u ∨ ∃ c d, v = runTask u c d := by
  intro l
  induction l with
  | nil => simp [scheduleLoop]
  | cons h rest ih =>
    intro k clock cap v hv
    rw [scheduleLoop] at hv
    split_ifs at hv with c1 c2 c3 c4 c5
    · rcases List.mem_cons.mp hv with rfl | hv
      · exact ⟨v, List.mem_cons_self _ _, Or.inl rfl⟩
      · obtain ⟨u, hu, hc⟩ := ih k clock cap v hv
        exact ⟨u, List.mem_cons_of_mem _ hu, hc⟩
    · rcases List.mem_cons.mp hv with rfl | hv
      · exact ⟨h, List.mem_cons_self _ _, Or.inr ⟨clock, dur k, rfl⟩⟩
      · obtain ⟨u, hu, hc⟩ := ih (k + 1) (clock + dur k) (cap - dur k) v hv
        exact ⟨u, List.mem_cons_of_mem _ hu, hc⟩
    · rcases List.mem_cons.mp hv with rfl | hv
      · exact ⟨v, List.mem_cons_self _ _, Or.inl rfl⟩
      · exact ⟨v, List.mem_cons_of_mem _ hv, Or.inl rfl⟩
    · rcases List.mem_cons.mp hv with rfl | hv
      · exact ⟨h, List.mem_cons_self _ _, Or.inr ⟨clock, dur k, rfl⟩⟩
      · exact ⟨v, List.mem_cons_of_mem _ hv, Or.inl rfl⟩
    · rcases List.mem_cons.mp hv with rfl | hv
      · exact ⟨v, List.mem_cons_self _ _, Or.inl rfl⟩
      · obtain ⟨u, hu, hc⟩ := ih k clock cap v hv
        exact ⟨u, List.mem_cons_of_mem _ hu, hc⟩
    · rcases List.mem_cons.mp hv with rfl | hv
      · exact ⟨h, List.mem_cons_self _ _, Or.inr ⟨clock, dur k, rfl⟩⟩
      · obtain ⟨u, hu, hc⟩ := ih (k + 1) (clock + dur k) (cap - dur k) v hv
        exact ⟨u, List.mem_cons_of_mem _ hu, hc⟩

/-- Occurrences of a rate-limited (`NOT_NEEDED`-scored) task survive the
admission loop untouched: it is never run. -/
theorem count_le_scheduleLoop (dur : Nat → Int) (u : Task)
    (hu : u.currentPriority = runPriorityNotNeed) :
    ∀ (l : List Task) (k : Nat) (clock cap : Int),
      l.count u ≤ (scheduleLoop dur k clock cap l).count u := by
  intro l
  induction l with
  | nil => simp [scheduleLoop]
  | cons h rest ih =>
    intro k clock cap
    rw [scheduleLoop]
    have hrun : ∀ (c d : Int), h.currentPriority ≠ runPriorityNotNeed →
        runTask h c d ≠ u := by
      intro c d hne he
      apply hne
      rw [← runTask_currentPriority h c d, he, hu]
    split_ifs with c1 c2 c3 c4 c5
    · simp only [List.count_cons]
      have := ih k clock cap
      omega
    · have hne : h.currentPriority ≠ runPriorityNotNeed := by
        rw [c2]; exact sentinels_ne
      simp only [List.count_cons]
      have h1 : (runTask h clock (dur k) == u) = false := by
        simp [hrun clock (dur k) hne]
      have h2 : (h == u) = false := by
        simp only [beq_eq_false_iff_ne, ne_eq]
        intro he
        exact hne (by rw [he, hu])
      rw [h1, h2]
      have := ih (k + 1) (clock + dur k) (cap - dur k)
      omega
    · exact le_refl _
    · simp only [List.count_cons]
      have h1 : (runTask h clock (dur k) == u) = false := by
        simp [hrun clock (dur k) c1]
      have h2 : (h == u) = false := by
        simp only [beq_eq_false_iff_ne, ne_eq]
        intro he
        exact c1 (by rw [he, hu])
      rw [h1, h2]
    · simp only [List.count_cons]
      have := ih k clock cap
      omega
    · simp only [List.count_cons]
      have h1 : (runTask h clock (dur k) == u) = false := by
        simp [hrun clock (dur k) c1]
      have h2 : (h == u) = false := by
        simp only [beq_eq_false_iff_ne, ne_eq]
        intro he
        exact c1 (by rw [he, hu])
      rw [h1, h2]
      have := ih (k + 1) (clock + dur k) (cap - dur k)
      omega

/-- Mapping by any function does not decrease the count of the image of
an element. -/
theorem count_map_ge (f : Task → Task) (t : Task) :
    ∀ l : List Task, l.count t ≤ (l.map f).count (f t) := by
  intro l
  induction l with
  | nil => simp
  | cons h rest ih =>
    simp only [List.map_cons, List.count_cons]
    by_cases he : h = t
    · subst he
      simp only [beq_self_eq_true, if_true]
      omega
    · have h2 : (h == t) = false := by simp [he]
      rw [h2]
      simp only [Bool.false_eq_true, if_false, add_zero]
      split <;> omega

/-- A raw overdue difference forces the critical score: the clamped
`time.Time.Sub` value is still at or above `runAtLeastOnceIn`. -/
theorem score_critical_raw (now : Int) (t : Task)
    (hmax : t.runAtLeastOnceIn ≤ int64Max)
    (hmla : t.runAtMostOnceIn ≤ t.runAtLeastOnceIn)
    (hover : t.runAtLeastOnceIn ≤ now - t.lastRunAt) :
    calculateTaskPriority now t = runPriorityCritical := by
  have hts : t.runAtLeastOnceIn ≤ timeSub now t.lastRunAt := by
    unfold timeSub int64Min int64Max at *
    omega
  exact score_critical now t (by omega) hts

/-- Every element of the sorted scored list of a well-formed task set
has a well-behaved score. -/
theorem scoreOK_all (now : Int) (tasks : List Task)
    (hwf : ∀ u ∈ tasks, WellFormed u) :
    ∀ v ∈ List.insertionSort taskGE (tasks.map (scoreTask now)), ScoreOK v := by
  intro v hv
  rw [(List.perm_insertionSort taskGE _).mem_iff] at hv
  obtain ⟨u, hu, rfl⟩ := List.mem_map.mp hv
  exact scoreOK_of_wellFormed now u (hwf u hu)

/-! ## The claims -/

/-- C1: whenever `now − lastRunAt ≥ runAtLeastOnceIn`, the score is the
`CRITICAL` sentinel, `Scheduler.Execute` runs the task in the current
cycle even when the capacity is non-positive (the capacity is fully
universally quantified), and a critical task's measured — not average —
run duration is deducted from the capacity, which may go negative. -/
theorem claim_C1_critical_preempts_capacity (now capacity : Int) (dur : Nat → Int)
    (tasks : List Task) (t : Task)
    (hwf : ∀ u ∈ tasks, WellFormed u) (ht : t ∈ tasks)
    (hover : t.runAtLeastOnceIn ≤ now - t.lastRunAt) :
    calculateTaskPriority now t = runPriorityCritical ∧
      (∃ c d, runTask (scoreTask now t) c d ∈ schedulerExecute now dur capacity tasks) ∧
      ∀ (k : Nat) (clock cap : Int) (u : Task) (rest : List Task),
        u.currentPriority = runPriorityCritical →
          scheduleLoop dur k clock cap (u :: rest) =
            runTask u clock (dur k) ::
              scheduleLoop dur (k + 1) (clock + dur k) (cap - dur k) rest := by
  have hwft := hwf t ht
  have hcrit : calculateTaskPriority now t = runPriorityCritical :=
    score_critical_raw now t hwft.2.2 (le_of_lt hwft.2.1) hover
  refine ⟨hcrit, ?_,
    fun k clock cap u rest hcp => scheduleLoop_critical_step dur k clock cap u rest hcp⟩
  have hmem : scoreTask now t ∈ List.insertionSort taskGE (tasks.map (scoreTask now)) := by
    rw [(List.perm_insertionSort taskGE _).mem_iff]
    exact List.mem_map_of_mem _ ht
  have hcp : (scoreTask now t).currentPriority = runPriorityCritical := hcrit
  exact criticals_run dur _ (scoreOK_all now tasks hwf)
    (List.sorted_insertionSort taskGE _) _ hmem hcp 0 now capacity

/-- C1 witness: a concrete overdue task is run by `Scheduler.Execute`
at a negative capacity, and the head step deducts the measured duration
from the already-negative capacity. -/
theorem claim_C1_witness :
    calculateTaskPriority cexNow cexCritical = runPriorityCritical ∧
      (∃ c d, runTask (scoreTask cexNow cexCritical) c d ∈
        schedulerExecute cexNow (fun _ => 1000000) (-5000000) [cexCritical]) ∧
      scheduleLoop (fun _ => 1000000) 0 cexNow (-5000000)
          [scoreTask cexNow cexCritical] =
        runTask (scoreTask cexNow cexCritical) cexNow 1000000 ::
          scheduleLoop (fun _ => 1000000) 1 (cexNow + 1000000)
            (-5000000 - 1000000) [] := by
  have h := claim_C1_critical_preempts_capacity cexNow (-5000000) (fun _ => 1000000)
    [cexCritical] cexCritical (by decide) (by decide) (by decide)
  exact ⟨h.1, h.2.1,
    h.2.2 0 cexNow (-5000000) (scoreTask cexNow cexCritical) [] h.1⟩

/-- C2: whenever `now − lastRunAt < runAtMostOnceIn`, the score is the
`NOT_NEEDED` sentinel — whatever the priority class and even if the task
is also overdue — and `Scheduler.Execute` leaves every occurrence of the
task in place, unchanged apart from the recomputed transient score: the
task is skipped in that cycle. -/
theorem claim_C2_rate_limited_skipped (now capacity : Int) (dur : Nat → Int)
    (tasks : List Task) (t : Task)
    (hlim : now - t.lastRunAt < t.runAtMostOnceIn)
    (hmin : int64Min < t.runAtMostOnceIn) :
    calculateTaskPriority now t = runPriorityNotNeed ∧
      tasks.count t ≤ (schedulerExecute now dur capacity tasks).count (scoreTask now t) := by
  have h1 : timeSub now t.lastRunAt < t.runAtMostOnceIn := by
    unfold timeSub int64Min int64Max at *
    omega
  have hscore := score_notNeeded now t h1
  refine ⟨hscore, ?_⟩
  calc tasks.count t ≤ (tasks.map (scoreTask now)).count (scoreTask now t) :=
        count_map_ge _ _ _
    _ = (List.insertionSort taskGE (tasks.map (scoreTask now))).count (scoreTask now t) :=
        ((List.perm_insertionSort taskGE _).count_eq _).symm
    _ ≤ _ := count_le_scheduleLoop dur _ hscore _ 0 now capacity

/-- C2 witness: a concrete rate-limited task — overdue-irrelevant, High
priority — is skipped by a concrete `Scheduler.Execute` call. -/
theorem claim_C2_witness :
    calculateTaskPriority cexNow cexLimited = runPriorityNotNeed ∧
      [cexLimited].count cexLimited ≤
        (schedulerExecute cexNow (fun _ => 1000000) 10000000 [cexLimited]).count
          (scoreTask cexNow cexLimited) :=
  claim_C2_rate_limited_skipped cexNow 10000000 (fun _ => 1000000)
    [cexLimited] cexLimited (by decide) (by decide)

/-- C4: a never-run task (`lastRunAt` at the Go zero time) scores
`CRITICAL` on first evaluation, for any priority class and any `int64`
configuration, at any evaluation time from year 293 on (where the
saturating `time.Time.Sub` returns the maximal duration). -/
theorem claim_C4_first_run_forced (now : Int) (t : Task)
    (hzero : t.lastRunAt = 0) (hnow : 2 ^ 63 ≤ now)
    (hmost : t.runAtMostOnceIn ≤ int64Max)
    (hleast : t.runAtLeastOnceIn ≤ int64Max) :
    calculateTaskPriority now t = runPriorityCritical := by
  have hts : timeSub now t.lastRunAt = int64Max := by
    rw [hzero]
    unfold timeSub int64Min int64Max
    omega
  apply score_critical
  · rw [hts]; omega
  · rw [hts]; exact hleast

/-- C4 witness: a concrete fresh task at a modern instant. -/
theorem claim_C4_witness :
    calculateTaskPriority cexNow
      { priority := .normal
        runAtLeastOnceIn := 60000000000
        runAtMostOnceIn := 1000000000
        currentPriority := 0
        lastRunAt := 0
        avgDuration := 0
        runsCount := 0 } = runPriorityCritical :=
  claim_C4_first_run_forced cexNow _ (by decide) (by decide) (by decide) (by decide)

/-- C5: a task that is neither rate-limited nor overdue scores
`(now − lastRunAt) / runAtLeastOnceIn` times its class weight
(Low = 0.75, Normal = 1.0, High = 1.25), and the value lies in
`(0, 5/4]`.  The divisibility hypotheses state that the elapsed time and
the SLA are whole microseconds, the resolution at which the evaluator
computes the fraction. -/
theorem claim_C5_fraction_score (now : Int) (t : Task)
    (hge : t.runAtMostOnceIn ≤ now - t.lastRunAt)
    (hlt : now - t.lastRunAt < t.runAtLeastOnceIn)
    (hpos : 0 < t.runAtMostOnceIn)
    (hmax : t.runAtLeastOnceIn ≤ int64Max)
    (hdvd1 : (1000 : Int) ∣ now - t.lastRunAt)
    (hdvd2 : (1000 : Int) ∣ t.runAtLeastOnceIn) :
    calculateTaskPriority now t =
        ((now - t.lastRunAt : Int) : ℚ) / ((t.runAtLeastOnceIn : Int) : ℚ) *
          priorityAsMultiplier t.priority ∧
      priorityAsMultiplier .low = 3 / 4 ∧
      priorityAsMultiplier .normal = 1 ∧
      priorityAsMultiplier .high = 5 / 4 ∧
      0 < calculateTaskPriority now t ∧
      calculateTaskPriority now t ≤ 5 / 4 := by
  obtain ⟨m, hm⟩ := hdvd1
  obtain ⟨n, hn⟩ := hdvd2
  have h1 : ¬ timeSub now t.lastRunAt < t.runAtMostOnceIn := by
    unfold timeSub int64Min int64Max at *
    omega
  have h2 : ¬ t.runAtLeastOnceIn ≤ timeSub now t.lastRunAt := by
    unfold timeSub int64Min int64Max at *
    omega
  have hnum : unixMicro now - unixMicro t.lastRunAt = m := by
    unfold unixMicro
    omega
  have hden : unixMicro (t.lastRunAt + t.runAtLeastOnceIn) - unixMicro t.lastRunAt = n := by
    unfold unixMicro
    omega
  have hmpos : 0 < m := by omega
  have hmn : m ≤ n := by omega
  have hval : calculateTaskPriority now t =
      ((m : Int) : ℚ) / ((n : Int) : ℚ) * priorityAsMultiplier t.priority := by
    rw [score_fraction now t h1 h2, hnum, hden]
  have hmQ : (0 : ℚ) < (m : ℚ) := by exact_mod_cast hmpos
  have hnQ : (0 : ℚ) < (n : ℚ) := by exact_mod_cast lt_of_lt_of_le hmpos hmn
  have hfr0 : (0 : ℚ) < (m : ℚ) / (n : ℚ) := div_pos hmQ hnQ
  have hfr1 : (m : ℚ) / (n : ℚ) ≤ 1 := by
    rw [div_le_one hnQ]
    exact_mod_cast hmn
  refine ⟨?_, rfl, rfl, rfl, ?_, ?_⟩
  · rw [hval, hm, hn]
    push_cast
    rw [mul_div_mul_left (m : ℚ) (n : ℚ) (by norm_num : (1000 : ℚ) ≠ 0)]
  · rw [hval]
    exact mul_pos hfr0 (multiplier_pos t.priority)
  · rw [hval]
    calc ((m : Int) : ℚ) / ((n : Int) : ℚ) * priorityAsMultiplier t.priority ≤
        priorityAsMultiplier t.priority :=
          mul_le_of_le_one_left (multiplier_nonneg t.priority) (by exact_mod_cast hfr1)
    _ ≤ 5 / 4 := multiplier_le t.priority

/-- C5 witness: a concrete mid-interval task, 5s elapsed against a 10s
SLA, Normal class. -/
theorem claim_C5_witness :
    (calculateTaskPriority cexNow cexTask1 =
        ((cexNow - cexTask1.lastRunAt : Int) : ℚ) /
            ((cexTask1.runAtLeastOnceIn : Int) : ℚ) *
          priorityAsMultiplier cexTask1.priority ∧
      priorityAsMultiplier .low = 3 / 4 ∧
      priorityAsMultiplier .normal = 1 ∧
      priorityAsMultiplier .high = 5 / 4 ∧
      0 < calculateTaskPriority cexNow cexTask1 ∧
      calculateTaskPriority cexNow cexTask1 ≤ 5 / 4) :=
  claim_C5_fraction_score cexNow cexTask1 (by decide) (by decide) (by decide)
    (by decide) (by decide) (by decide)

set_option maxRecDepth 8000 in
/-- C6 counterexample: with capacity 10ms, `cexTask1` (score 1/2,
average 1ms) is admitted and run first, then `cexTask2` (score 1/4,
average unknown) is reached with positive remaining capacity, run, and
iteration stops.  Both tasks' run counters increase, so the unknown-cost
task is *not* "run alone as the single admitted task of the cycle" —
another capacity-admitted (non-critical) task ran in the same
`Scheduler.Execute` call. -/
theorem claim_C6_counterexample :
    calculateTaskPriority cexNow cexTask1 = 1 / 2 ∧
      calculateTaskPriority cexNow cexTask2 = 1 / 4 ∧
      cexTask2.avgDuration = 0 ∧
      cexTask1.runsCount = 1 ∧ cexTask2.runsCount = 0 ∧
      (schedulerExecute cexNow (fun _ => 1000000) 10000000
          [cexTask1, cexTask2]).map (fun u => u.runsCount) = [2, 1] := by
  have h1 : calculateTaskPriority cexNow cexTask1 = 1 / 2 := by
    norm_num [calculateTaskPriority, timeSub, unixMicro, cexNow, cexTask1, epochNs,
      unixEpochNs, int64Max, int64Min, runPriorityNotNeed, runPriorityCritical,
      priorityAsMultiplier]
  have h2 : calculateTaskPriority cexNow cexTask2 = 1 / 4 := by
    norm_num [calculateTaskPriority, timeSub, unixMicro, cexNow, cexTask2, epochNs,
      unixEpochNs, int64Max, int64Min, runPriorityNotNeed, runPriorityCritical,
      priorityAsMultiplier]
  refine ⟨h1, h2, rfl, rfl, rfl, ?_⟩
  simp only [schedulerExecute, List.map, scoreTask, h1, h2,
    List.insertionSort, List.orderedInsert, taskGE]
  norm_num [scheduleLoop, runPriorityNotNeed, runPriorityCritical, runTask,
    cexTask1, cexTask2]

/-- C6 amended: when the iteration of `Scheduler.Execute` reaches, with
positive remaining capacity, a task whose score is neither sentinel and
whose average duration is unknown (≤ 0), that task is run and iteration
stops immediately — the remaining tasks of the sorted order pass through
unchanged and unrun.  (Tasks admitted *earlier* in the sorted order may
already have run in the same cycle, so it need not be the single
admitted task.) -/
theorem claim_C6_unknown_cost_stops (dur : Nat → Int) (k : Nat) (clock cap : Int)
    (t : Task) (rest : List Task)
    (h1 : t.currentPriority ≠ runPriorityNotNeed)
    (h2 : t.currentPriority ≠ runPriorityCritical)
    (h3 : 0 < cap) (h4 : t.avgDuration ≤ 0) :
    scheduleLoop dur k clock cap (t :: rest) = runTask t clock (dur k) :: rest :=
  scheduleLoop_unknown_step dur k clock cap t rest h1 h2 h3 h4

/-- C6 witness: the amended statement at the concrete scenario's second
task, already scored. -/
theorem claim_C6_witness :
    scheduleLoop (fun _ => 1000000) 1 cexNow 9000000
        [scoreTask cexNow cexTask2, cexCritical] =
      runTask (scoreTask cexNow cexTask2) cexNow 1000000 :: [cexCritical] := by
  have h2 : calculateTaskPriority cexNow cexTask2 = 1 / 4 := by
    norm_num [calculateTaskPriority, timeSub, unixMicro, cexNow, cexTask2, epochNs,
      unixEpochNs, int64Max, int64Min, runPriorityNotNeed, runPriorityCritical,
      priorityAsMultiplier]
  exact claim_C6_unknown_cost_stops (fun _ => 1000000) 1 cexNow 9000000
    (scoreTask cexNow cexTask2) [cexCritical]
    (by simp only [scoreTask, h2]; norm_num [runPriorityNotNeed])
    (by simp only [scoreTask, h2]; norm_num [runPriorityCritical])
    (by norm_num) (by decide)

/-- C10: `Scheduler.Execute` touches the bookkeeping fields `lastRunAt`,
`avgDuration` and `runsCount` only through `Scheduler.run`: every task
in the post-state is its pre-state counterpart with only the transient
`currentPriority` recomputed, optionally followed by exactly one run
update.  A task skipped in the cycle therefore keeps all three fields
unchanged. -/
theorem claim_C10_skipped_tasks_unchanged (now capacity : Int) (dur : Nat → Int)
    (tasks : List Task) :
    (∀ u : Task, (scoreTask now u).lastRunAt = u.lastRunAt ∧
        (scoreTask now u).avgDuration = u.avgDuration ∧
        (scoreTask now u).runsCount = u.runsCount) ∧
      ∀ v ∈ schedulerExecute now dur capacity tasks,
        ∃ u ∈ tasks, v = scoreTask now u ∨ ∃ c d, v = runTask (scoreTask now u) c d := by
  refine ⟨fun u => ⟨rfl, rfl, rfl⟩, ?_⟩
  intro v hv
  obtain ⟨w, hw, hc⟩ := scheduleLoop_shape dur _ 0 now capacity v hv
  rw [(List.perm_insertionSort taskGE _).mem_iff] at hw
  obtain ⟨u, hu, rfl⟩ := List.mem_map.mp hw
  exact ⟨u, hu, hc⟩

/-- C10 witness: the shape statement at a concrete skipped
(rate-limited) task, which survives `Scheduler.Execute` with only its
transient score recomputed. -/
theorem claim_C10_witness :
    (scoreTask cexNow cexLimited).lastRunAt = cexLimited.lastRunAt ∧
      (scoreTask cexNow cexLimited).avgDuration = cexLimited.avgDuration ∧
      (scoreTask cexNow cexLimited).runsCount = cexLimited.runsCount ∧
      scoreTask cexNow cexLimited ∈
        schedulerExecute cexNow (fun _ => 1000000) 10000000 [cexLimited] ∧
      ∃ u ∈ [cexLimited],
        scoreTask cexNow cexLimited = scoreTask cexNow u ∨
          ∃ c d, scoreTask cexNow cexLimited = runTask (scoreTask cexNow u) c d := by
  have h := claim_C10_skipped_tasks_unchanged cexNow 10000000 (fun _ => 1000000)
    [cexLimited]
  have hmem : scoreTask cexNow cexLimited ∈
      schedulerExecute cexNow (fun _ => 1000000) 10000000 [cexLimited] := by decide
  exact ⟨(h.1 cexLimited).1, (h.1 cexLimited).2.1, (h.1 cexLimited).2.2, hmem,
    h.2 (scoreTask cexNow cexLimited) hmem⟩

/-- C3: in every cycle the catch-up loop invokes the update callback at
least once whenever the measured `deltaTime` is positive — even when it
is smaller than the rate — because the first iteration performs the
extra "free" decrement of `updateDelta` and still calls the update. -/
theorem claim_C3_at_least_one_update (rate deltaTime : Int)
    (hrate : 0 < rate) (hdelta : 0 < deltaTime) :
    1 ≤ numUpdates rate deltaTime ∧
      numUpdates rate deltaTime =
        1 + tickLoop rate (rate + deltaTime - rate - rate) false := by
  have hcond : 0 < rate ∧ rate < rate + deltaTime := ⟨hrate, by omega⟩
  constructor
  · unfold numUpdates
    rw [tickLoop, dif_pos hcond, if_pos rfl]
    omega
  · unfold numUpdates
    rw [tickLoop, dif_pos hcond, if_pos rfl]

/-- C3 witness: a 60 TPS rate with a deltaTime under one rate interval
still produces one update call. -/
theorem claim_C3_witness :
    1 ≤ numUpdates 16666666 1000000 ∧
      numUpdates 16666666 1000000 =
        1 + tickLoop 16666666 (16666666 + 1000000 - 16666666 - 16666666) false :=
  claim_C3_at_least_one_update 16666666 1000000 (by decide) (by decide)

/-- Cumulative-moving-average invariant of `Scheduler.run`: once the
average equals the constant measured duration, it stays there. -/
theorem runTimes_avg_const (c : Nat → Int) (d : Int) :
    ∀ (n : Nat) (t : Task), t.avgDuration = d → (runTimes c d n t).avgDuration = d := by
  intro n
  induction n with
  | zero => intro t h; exact h
  | succ n ih =>
    intro t h
    rw [runTimes]
    apply ih
    unfold runTask
    simp only
    rw [h]
    have hfold : d * (t.runsCount : Int) + d = d * ((t.runsCount : Int) + 1) := by ring
    rw [hfold]
    exact Int.mul_tdiv_cancel d (by omega)

/-- C7: `Scheduler.run` sets `lastRunAt` to the run's start time,
replaces `avgDuration` with the cumulative moving average
`(avgDuration·runsCount + duration) / (runsCount + 1)` and increments
`runsCount`; consequently a task that has never run converges: after
`N ≥ 1` runs each measured at exactly `d`, its average equals `d`. -/
theorem claim_C7_run_bookkeeping (t : Task) (clock d : Int) (c : Nat → Int)
    (t0 : Task) (N : Nat)
    (havg : t0.avgDuration = 0) (hruns : t0.runsCount = 0) (hN : 1 ≤ N) :
    (runTask t clock d).lastRunAt = clock ∧
      (runTask t clock d).avgDuration =
        Int.tdiv (t.avgDuration * (t.runsCount : Int) + d) ((t.runsCount : Int) + 1) ∧
      (runTask t clock d).runsCount = t.runsCount + 1 ∧
      (runTimes c d N t0).avgDuration = d := by
  refine ⟨rfl, rfl, rfl, ?_⟩
  obtain ⟨n, rfl⟩ : ∃ n, N = n + 1 := ⟨N - 1, by omega⟩
  rw [runTimes]
  apply runTimes_avg_const
  unfold runTask
  simp only [havg, hruns]
  norm_num

/-- C8: the throttle is the rate minus the tick, frame and tasks
durations, reduced by the correction only when the correction is
positive, and clamped at zero from below — the stored value (and hence
the sleep) is never negative. -/
theorem claim_C8_throttle_clamped (rate tickDur frameDur tasksDur corr : Int) :
    0 ≤ throttleTime rate tickDur frameDur tasksDur corr ∧
      (0 < corr →
        throttleTime rate tickDur frameDur tasksDur corr =
          max 0 (rate - (tickDur + frameDur + tasksDur) - corr)) ∧
      (corr ≤ 0 →
        throttleTime rate tickDur frameDur tasksDur corr =
          max 0 (rate - (tickDur + frameDur + tasksDur))) := by
  simp only [throttleTime]
  split_ifs <;> refine ⟨by omega, fun h => by omega, fun h => by omega⟩

/-- C8 witness: a cycle that overran its budget sleeps zero, not a
negative time. -/
theorem claim_C8_witness :
    0 ≤ throttleTime 16 10 9 3 2 ∧
      ((0 : Int) < 2 → throttleTime 16 10 9 3 2 = max 0 (16 - (10 + 9 + 3) - 2)) ∧
      ((2 : Int) ≤ 0 → throttleTime 16 10 9 3 2 = max 0 (16 - (10 + 9 + 3))) :=
  claim_C8_throttle_clamped 16 10 9 3 2

/-- Under the log-and-continue policy no callback failure ever aborts:
every error is forwarded, in order, to the logger. -/
theorem runCallbacks_log_eq (results : List (Option Nat)) :
    runCallbacks .log results = .ok (results.filterMap id) := by
  induction results with
  | nil => rfl
  | cons h rest ih =>
    cases h with
    | none => simpa [runCallbacks] using ih
    | some e =>
      rw [runCallbacks]
      simp only [handleError, ih, List.filterMap_cons, Option.toList_some]
      rfl

/-- Under the exit-on-error policy the first failure aborts with that
very error. -/
theorem runCallbacks_exit_eq (pre : List (Option Nat)) (e : Nat)
    (rest : List (Option Nat)) (hpre : ∀ x ∈ pre, x = none) :
    runCallbacks .exit (pre ++ some e :: rest) = .error e := by
  induction pre with
  | nil => rfl
  | cons h pre ih =>
    have hh : h = none := hpre h (List.mem_cons_self _ _)
    subst hh
    rw [List.cons_append, runCallbacks]
    exact ih fun x hx => hpre x (List.mem_cons_of_mem _ hx)

/-- C9: `handleError` returns the error under `ErrBehaviorExit` and logs
it returning nil under `ErrBehaviorLog`; accordingly the loop's error
plumbing aborts at the first failure with that error under the exit
policy, and under the log policy forwards every failure to the logger in
order and never aborts. -/
theorem claim_C9_error_policy :
    (∀ e : Nat, handleError .exit e = (some e, none)) ∧
      (∀ e : Nat, handleError .log e = (none, some e)) ∧
      (∀ (pre : List (Option Nat)) (e : Nat) (rest : List (Option Nat)),
        (∀ x ∈ pre, x = none) →
          runCallbacks .exit (pre ++ some e :: rest) = .error e) ∧
      ∀ results : List (Option Nat),
        runCallbacks .log results = .ok (results.filterMap id) :=
  ⟨fun _ => rfl, fun _ => rfl,
    fun pre e rest hpre => runCallbacks_exit_eq pre e rest hpre,
    fun results => runCallbacks_log_eq results⟩

/-- C7 witness: concrete run bookkeeping, and convergence of a fresh
task's average after four constant-duration runs. -/
theorem claim_C7_witness :
    (runTask cexTask1 cexNow 2000000).lastRunAt = cexNow ∧
      (runTask cexTask1 cexNow 2000000).avgDuration =
        Int.tdiv (cexTask1.avgDuration * (cexTask1.runsCount : Int) + 2000000)
          ((cexTask1.runsCount : Int) + 1) ∧
      (runTask cexTask1 cexNow 2000000).runsCount = cexTask1.runsCount + 1 ∧
      (runTimes (fun _ => cexNow) 2000000 4 cexTask2).avgDuration = 2000000 :=
  claim_C7_run_bookkeeping cexTask1 cexNow 2000000 (fun _ => cexNow) cexTask2 4
    (by decide) (by decide) (by decide)

/-- C9 witness: concrete runs of both policies. -/
theorem claim_C9_witness :
    handleError .exit 7 = (some 7, none) ∧
      handleError .log 7 = (none, some 7) ∧
      runCallbacks .exit ([none] ++ some 7 :: [some 3]) = .error 7 ∧
      runCallbacks .log [some 5, none, some 6] =
        .ok ([some 5, none, some 6].filterMap id) := by
  have h := claim_C9_error_policy
  exact ⟨h.1 7, h.2.1 7, h.2.2.1 [none] 7 [some 3] (by decide),
    h.2.2.2 [some 5, none, some 6]⟩


